import Mathlib

/-!
Verification of the core data pipeline of the arup-group/social-data
repository (run.py and equity_explorer.py), as a shallow embedding.

Numeric columns are embedded as rational numbers; the only real-valued
operation in the pipeline, math.sqrt inside priority_indicator, is
embedded with Real.sqrt.  Tables are lists of rows; a pandas column is
the map of a field over the row list.  Column scaling follows
sklearn.preprocessing.MaxAbsScaler, which divides each column by its
maximum absolute value and substitutes a scale of 1 when that maximum
is zero (its documented handling of zero scales).
-/

namespace SocialData

/-- Embeds priority_indicator (run.py lines 160-165): time_left values
below 1 are replaced by 1, then the result is
socioeconomic_index * (1 - policy_index) / sqrt(time_left). -/
noncomputable def priority_indicator (socioeconomic_index policy_index : ℝ)
    (time_left : ℤ) : ℝ :=
  let t : ℤ := if time_left < 1 then 1 else time_left
  socioeconomic_index * (1 - policy_index) / Real.sqrt (t : ℝ)

/-- One county row of the raw indicator table, after clean_data, with the
numeric columns that run.py's normalize consumes.  The percent columns,
the income-inequality ratio and the resident population (thousands of
persons) are the inputs; Non-Home Ownership (%) is the 100 - Home
Ownership (%) column computed by clean_data (run.py line 77). -/
structure RawRow where
  povertyPct : ℚ
  unemploymentPct : ℚ
  burdenedPct : ℚ
  singleParentPct : ℚ
  nonHomeOwnershipPct : ℚ
  incomeInequality : ℚ
  population : ℚ
deriving DecidableEq

/-- Embeds percent_to_population (run.py lines 95-97):
percent / 100 * resident population in thousands * 1000. -/
def percent_to_population (pct pop : ℚ) : ℚ :=
  pct / 100 * pop * 1000

/-- The six numeric columns that remain in the table produced by
normalize (run.py lines 118-139) after the percent-to-population
conversions and the drops of the percent, population and policy
columns. -/
structure SixRow where
  popBelowPoverty : ℚ
  popUnemployed : ℚ
  incomeInequality : ℚ
  nonHomeOwnershipPop : ℚ
  numBurdened : ℚ
  numSingleParent : ℚ
deriving DecidableEq

/-- The percent-to-population conversion step of normalize (run.py
lines 119-123), before any scaling. -/
def preNormalize (r : RawRow) : SixRow where
  popBelowPoverty := percent_to_population r.povertyPct r.population
  popUnemployed := percent_to_population r.unemploymentPct r.population
  incomeInequality := r.incomeInequality
  nonHomeOwnershipPop := percent_to_population r.nonHomeOwnershipPct r.population
  numBurdened := percent_to_population r.burdenedPct r.population
  numSingleParent := percent_to_population r.singleParentPct r.population

/-- Maximum absolute value of a column, the statistic MaxAbsScaler fits. -/
def maxAbs (l : List ℚ) : ℚ :=
  l.foldr (fun x m => max |x| m) 0

/-- Zero-scale handling of sklearn MaxAbsScaler: a scale of zero is
replaced by 1 so that degenerate columns are left untouched. -/
def handleZeros (s : ℚ) : ℚ :=
  if s = 0 then 1 else s

/-- One column transformed by MaxAbsScaler, as used by normalize
(run.py lines 136-137) and normalize_column (lines 142-146). -/
def scaleColumn (l : List ℚ) : List ℚ :=
  l.map (fun x => x / handleZeros (maxAbs l))

/-- Embeds normalize (run.py lines 118-139): convert the percent columns
to absolute population counts, drop the percent, population and policy
columns, then scale every remaining column by its own maximum absolute
value over the current unit set (MaxAbsScaler). -/
def normalize (rows : List RawRow) : List SixRow :=
  let pre := rows.map preNormalize
  let s1 := handleZeros (maxAbs (pre.map SixRow.popBelowPoverty))
  let s2 := handleZeros (maxAbs (pre.map SixRow.popUnemployed))
  let s3 := handleZeros (maxAbs (pre.map SixRow.incomeInequality))
  let s4 := handleZeros (maxAbs (pre.map SixRow.nonHomeOwnershipPop))
  let s5 := handleZeros (maxAbs (pre.map SixRow.numBurdened))
  let s6 := handleZeros (maxAbs (pre.map SixRow.numSingleParent))
  pre.map (fun r =>
    { popBelowPoverty := r.popBelowPoverty / s1
      popUnemployed := r.popUnemployed / s2
      incomeInequality := r.incomeInequality / s3
      nonHomeOwnershipPop := r.nonHomeOwnershipPop / s4
      numBurdened := r.numBurdened / s5
      numSingleParent := r.numSingleParent / s6 })

/-- The names of the six socioeconomic columns crossed by cross_features
(run.py lines 101-102). -/
inductive Col where
  | popBelowPoverty
  | popUnemployed
  | incomeInequality
  | nonHomeOwnershipPop
  | numBurdened
  | numSingleParent
deriving DecidableEq

/-- Column lookup by name on a normalized row. -/
def SixRow.get (r : SixRow) : Col → ℚ
  | .popBelowPoverty => r.popBelowPoverty
  | .popUnemployed => r.popUnemployed
  | .incomeInequality => r.incomeInequality
  | .nonHomeOwnershipPop => r.nonHomeOwnershipPop
  | .numBurdened => r.numBurdened
  | .numSingleParent => r.numSingleParent

/-- The cols list of cross_features, in source order (run.py
lines 101-102). -/
def crossCols : List Col :=
  [.popBelowPoverty, .popUnemployed, .incomeInequality,
   .nonHomeOwnershipPop, .numBurdened, .numSingleParent]

/-- Embeds itertools.combinations: all size-r subsequences of a list, in
the lexicographic order of positions that itertools emits. -/
def combinations {α : Type} : ℕ → List α → List (List α)
  | 0, _ => [[]]
  | _ + 1, [] => []
  | r + 1, x :: xs =>
      (combinations r xs).map (fun c => x :: c) ++ combinations (r + 1) xs

/-- Embeds the all_combinations accumulation of cross_features (run.py
lines 103-106): for r in range(2, 3), append combinations(cols, r). -/
def all_combinations : List (List Col) :=
  (List.range' 2 1).flatMap (fun r => combinations r crossCols)

/-- Embeds cross (run.py lines 153-157): the element-wise product of the
columns of the combination, then the absolute value. -/
def cross (combo : List Col) (r : SixRow) : ℚ :=
  |(combo.map r.get).prod|

/-- The Mean column of cross_features (run.py lines 107-115): the
row-wise mean over all generated pair columns. -/
def crossedMean (r : SixRow) : ℚ :=
  ((all_combinations.map (fun combo => cross combo r)).sum) /
    (all_combinations.length : ℚ)

/-- Maximum of a pandas numeric column (Series.max), for nonempty data. -/
def listMax : List ℚ → ℚ
  | [] => 0
  | x :: xs => xs.foldl max x

/-- Row-wise sum over the six normalized columns, part of the
sum(axis=1) of run.py line 176. -/
def SixRow.rowSum (r : SixRow) : ℚ :=
  r.popBelowPoverty + r.popUnemployed + r.incomeInequality +
    r.nonHomeOwnershipPop + r.numBurdened + r.numSingleParent

/-- The raw aggregate score column of rank_counties (run.py lines
170-176): normalize the table, add the Crossed column (the mean of
cross_features, rescaled by normalize_column), then sum every column
row-wise. -/
def rawScores (rows : List RawRow) : List ℚ :=
  ((normalize rows).zip (scaleColumn ((normalize rows).map crossedMean))).map
    (fun p => p.1.rowSum + p.2)

/-- The Relative Risk column of rank_counties (run.py lines 176-178):
every raw aggregate score divided by the maximum raw aggregate score. -/
def relativeRisks (rows : List RawRow) : List ℚ :=
  (rawScores rows).map (fun s => s / listMax (rawScores rows))

/-- Embeds the tail of rank_counties (run.py lines 180-189): when the
input table carries the Policy Value and Countdown columns, the output
additionally carries them together with the Rank column computed by
priority_indicator; otherwise the output has only the Relative Risk
column.  The optional second component is the (Policy Value, Countdown,
Rank) triple per row. -/
noncomputable def rank_counties (rows : List RawRow)
    (policy : Option (List (ℚ × ℤ))) :
    List ℚ × Option (List (ℚ × ℤ × ℝ)) :=
  let rr := relativeRisks rows
  match policy with
  | some pol =>
      (rr, some (((rr.zip pol).map
        (fun p => (p.2.1, p.2.2, priority_indicator (p.1 : ℝ) ((p.2.1 : ℚ) : ℝ) p.2.2)))))
  | none => (rr, none)

/-- One county row before rank_counties, carrying the join keys used by
get_existing_policies: the county_id column (database join) and the
County Name column (workbook join). -/
structure County where
  county_id : ℕ
  countyName : String
  raw : RawRow
deriving DecidableEq

/-- Inner merge of the county table with a policy table on a key, as
pandas merge performs it: for every left row, in order, one output row
per matching policy row.  A policy row is (key, Policy Value,
Countdown). -/
def mergeOn {κ : Type} [BEq κ] (df : List County)
    (pol : List (κ × ℚ × ℤ)) (key : County → κ) :
    List (County × ℚ × ℤ) :=
  df.flatMap (fun c =>
    (pol.filter (fun p => p.1 == key c)).map (fun p => (c, p.2.1, p.2.2)))

/-- Embeds get_existing_policies (run.py lines 209-229).  The database
policy table is merged on county_id; when the merge is nonempty and has
exactly as many rows as the county table, the merged table is returned
if the user accepts it (useDb models the interactive confirmation),
otherwise the original table.  When the length check fails, the
workbook policy table is merged on County Name under the same length
check; if that also fails the original table is returned unchanged.
The result pairs the county rows with the optional (Policy Value,
Countdown) columns. -/
def get_existing_policies (df : List County)
    (dbPolicy : List (ℕ × ℚ × ℤ)) (excelPolicy : List (String × ℚ × ℤ))
    (useDb : Bool) : List County × Option (List (ℚ × ℤ)) :=
  let t := mergeOn df dbPolicy County.county_id
  if t.length ≠ 0 ∧ t.length = df.length then
    if useDb then
      (t.map (fun p => p.1), some (t.map (fun p => (p.2.1, p.2.2))))
    else (df, none)
  else
    let t2 := mergeOn df excelPolicy County.countyName
    if t2.length ≠ 0 ∧ t2.length = df.length then
      (t2.map (fun p => p.1), some (t2.map (fun p => (p.2.1, p.2.2))))
    else (df, none)

/-- The database policy join covers every county exactly when each
county matches exactly one policy row. -/
def coversExactly (df : List County) (dbPolicy : List (ℕ × ℚ × ℤ)) : Prop :=
  ∀ c ∈ df, (dbPolicy.filter (fun p => p.1 == c.county_id)).length = 1

/-- Embeds pandas DataFrame.drop with its default errors raise policy:
dropping a list of labels fails when any label is absent. -/
def dropColumns (cols toDrop : List String) : Except String (List String) :=
  if toDrop.all (fun c => cols.contains c) then
    Except.ok (cols.filter (fun c => !(toDrop.contains c)))
  else Except.error "KeyError"

/-- Embeds the policy pass-through exclusion of normalize (run.py lines
125-126) at the level of column names: when either the Policy Value or
the Countdown column is present, both are dropped. -/
def normalizePolicyDrop (cols : List String) : Except String (List String) :=
  if cols.contains "Policy Value" || cols.contains "Countdown" then
    dropColumns cols ["Policy Value", "Countdown"]
  else Except.ok cols

/-- Embeds the melt plus weighting step of the transportation index
(equity_explorer.py lines 257-261): one (tract, indicator, weighted
value) row per selected indicator and tract, the value being the user
weight times the normalized indicator value. -/
def weightedMelt (tracts selected : List String) (w : String → ℕ)
    (value : String → String → ℚ) : List (String × String × ℚ) :=
  selected.flatMap (fun ind =>
    tracts.map (fun t => (t, ind, (w ind : ℚ) * value t ind)))

/-- Embeds the groupby-sum of equity_explorer.py line 262: the index of
a tract is the sum of its weighted melted rows. -/
def transport_index (rows : List (String × String × ℚ)) (t : String) : ℚ :=
  ((rows.filter (fun r => r.1 == t)).map (fun r => r.2.2)).sum

/-- Embeds the display-layer weight validation of equity_explorer.py
lines 251-252: an error message is shown exactly when the weights sum
to more than 101 or less than 99. -/
def weightWarning (ws : List ℕ) : Bool :=
  decide (ws.sum > 101) || decide (ws.sum < 99)

/-- Embeds sort_values with ascending False (equity_explorer.py line
265): the index values arranged in descending order. -/
def sortDescending (vals : List ℚ) : List ℚ :=
  vals.mergeSort (fun a b => decide (b ≤ a))

/-- The domain of the ranking pipeline: percentages, the income
inequality ratio and the resident population count are nonnegative. -/
def RawRow.wellFormed (r : RawRow) : Prop :=
  0 ≤ r.povertyPct ∧ 0 ≤ r.unemploymentPct ∧ 0 ≤ r.burdenedPct ∧
    0 ≤ r.singleParentPct ∧ 0 ≤ r.nonHomeOwnershipPct ∧
    0 ≤ r.incomeInequality ∧ 0 ≤ r.population

/-- All six columns of a row are nonnegative. -/
def SixRow.nonneg (q : SixRow) : Prop :=
  0 ≤ q.popBelowPoverty ∧ 0 ≤ q.popUnemployed ∧ 0 ≤ q.incomeInequality ∧
    0 ≤ q.nonHomeOwnershipPop ∧ 0 ≤ q.numBurdened ∧ 0 ≤ q.numSingleParent

/-! ## Helper lemmas -/

theorem mem_le_maxAbs {x : ℚ} {l : List ℚ} (hx : x ∈ l) : |x| ≤ maxAbs l := by
  induction l with
  | nil => cases hx
  | cons y ys ih =>
      rcases List.mem_cons.mp hx with h | h
      · subst h; exact le_max_left _ _
      · exact le_trans (ih h) (le_max_right _ _)

theorem maxAbs_nonneg (l : List ℚ) : 0 ≤ maxAbs l := by
  induction l with
  | nil => exact le_refl 0
  | cons y ys ih => exact le_trans ih (le_max_right _ _)

theorem handleZeros_pos {s : ℚ} (hs : 0 ≤ s) : 0 < handleZeros s := by
  unfold handleZeros
  split
  · exact zero_lt_one
  · exact lt_of_le_of_ne hs (Ne.symm (by assumption))

theorem le_foldl_max (xs : List ℚ) (x : ℚ) : x ≤ xs.foldl max x := by
  induction xs generalizing x with
  | nil => exact le_refl x
  | cons y ys ih => exact le_trans (le_max_left x y) (ih (max x y))

theorem mem_le_foldl_max {y : ℚ} {xs : List ℚ} (x : ℚ) (hy : y ∈ xs) :
    y ≤ xs.foldl max x := by
  induction xs generalizing x with
  | nil => cases hy
  | cons z zs ih =>
      rcases List.mem_cons.mp hy with h | h
      · subst h
        exact le_trans (le_max_right x y) (le_foldl_max zs (max x y))
      · exact ih (max x z) h

theorem le_listMax {x : ℚ} {l : List ℚ} (hx : x ∈ l) : x ≤ listMax l := by
  cases l with
  | nil => cases hx
  | cons y ys =>
      simp only [listMax]
      rcases List.mem_cons.mp hx with h | h
      · subst h; exact le_foldl_max ys x
      · exact mem_le_foldl_max y h

theorem foldl_max_mem (xs : List ℚ) (x : ℚ) :
    xs.foldl max x = x ∨ xs.foldl max x ∈ xs := by
  induction xs generalizing x with
  | nil => exact Or.inl rfl
  | cons y ys ih =>
      rcases ih (max x y) with h | h
      · rcases max_choice x y with hm | hm
        · exact Or.inl (by rw [List.foldl_cons, h, hm])
        · refine Or.inr ?_
          rw [List.foldl_cons, h, hm]
          exact List.mem_cons_self y ys
      · exact Or.inr (List.mem_cons_of_mem y h)

theorem listMax_mem {l : List ℚ} (h : l ≠ []) : listMax l ∈ l := by
  cases l with
  | nil => exact absurd rfl h
  | cons y ys =>
      simp only [listMax]
      rcases foldl_max_mem ys y with h1 | h1
      · rw [h1]; exact List.mem_cons_self y ys
      · exact List.mem_cons_of_mem y h1

theorem percent_to_population_nonneg {pct pop : ℚ} (h1 : 0 ≤ pct)
    (h2 : 0 ≤ pop) : 0 ≤ percent_to_population pct pop := by
  unfold percent_to_population
  exact mul_nonneg (mul_nonneg (div_nonneg h1 (by norm_num)) h2) (by norm_num)

theorem preNormalize_nonneg {r : RawRow} (h : r.wellFormed) :
    (preNormalize r).nonneg := by
  obtain ⟨h1, h2, h3, h4, h5, h6, h7⟩ := h
  exact ⟨percent_to_population_nonneg h1 h7, percent_to_population_nonneg h2 h7,
    h6, percent_to_population_nonneg h5 h7, percent_to_population_nonneg h3 h7,
    percent_to_population_nonneg h4 h7⟩

theorem normalize_nonneg {rows : List RawRow}
    (hw : ∀ r ∈ rows, r.wellFormed) : ∀ q ∈ normalize rows, q.nonneg := by
  intro q hq
  simp only [normalize, List.mem_map] at hq
  obtain ⟨p, hp, rfl⟩ := hq
  obtain ⟨r, hr, rfl⟩ := hp
  obtain ⟨n1, n2, n3, n4, n5, n6⟩ := preNormalize_nonneg (hw r hr)
  refine ⟨?_, ?_, ?_, ?_, ?_, ?_⟩ <;>
    exact div_nonneg (by assumption) (handleZeros_pos (maxAbs_nonneg _)).le

theorem crossedMean_nonneg (q : SixRow) : 0 ≤ crossedMean q := by
  unfold crossedMean
  apply div_nonneg
  · apply List.sum_nonneg
    intro x hx
    obtain ⟨combo, _, rfl⟩ := List.mem_map.mp hx
    exact abs_nonneg _
  · exact Nat.cast_nonneg _

theorem scaleColumn_nonneg {l : List ℚ} (hl : ∀ x ∈ l, 0 ≤ x) :
    ∀ y ∈ scaleColumn l, 0 ≤ y := by
  intro y hy
  obtain ⟨x, hx, rfl⟩ := List.mem_map.mp hy
  exact div_nonneg (hl x hx) (handleZeros_pos (maxAbs_nonneg _)).le

theorem rowSum_nonneg {q : SixRow} (h : q.nonneg) : 0 ≤ q.rowSum := by
  obtain ⟨n1, n2, n3, n4, n5, n6⟩ := h
  unfold SixRow.rowSum
  linarith

theorem rawScores_nonneg {rows : List RawRow}
    (hw : ∀ r ∈ rows, r.wellFormed) : ∀ s ∈ rawScores rows, 0 ≤ s := by
  intro s hs
  unfold rawScores at hs
  obtain ⟨p, hp, rfl⟩ := List.mem_map.mp hs
  obtain ⟨a, b⟩ := p
  obtain ⟨ha, hb⟩ := List.of_mem_zip hp
  have h1 : 0 ≤ a.rowSum := rowSum_nonneg (normalize_nonneg hw a ha)
  have h2 : 0 ≤ b := by
    refine scaleColumn_nonneg ?_ b hb
    intro x hx
    obtain ⟨q, _, rfl⟩ := List.mem_map.mp hx
    exact crossedMean_nonneg q
  exact add_nonneg h1 h2

theorem rawScores_length (rows : List RawRow) :
    (rawScores rows).length = rows.length := by
  simp [rawScores, normalize, scaleColumn]

theorem filter_map_tract {β : Type} (tracts : List String) (t : String)
    (g : String → β) (hnd : tracts.Nodup) (ht : t ∈ tracts) :
    ((tracts.map (fun s => (s, g s))).filter (fun r => r.1 == t)) =
      [(t, g t)] := by
  induction tracts with
  | nil => cases ht
  | cons a as ih =>
      rcases List.nodup_cons.mp hnd with ⟨hna, hnd2⟩
      by_cases hat : a = t
      · subst hat
        have hrest : ((as.map (fun s => (s, g s))).filter
            (fun r => r.1 == a)) = [] := by
          rw [List.filter_eq_nil_iff]
          intro x hx
          obtain ⟨s, hs, rfl⟩ := List.mem_map.mp hx
          intro hsa
          exact hna ((eq_of_beq hsa) ▸ hs)
        simp [List.filter_cons, hrest]
      · have hta : t ∈ as := by
          rcases List.mem_cons.mp ht with h | h
          · exact absurd h.symm hat
          · exact h
        have hhead : ((a, g a).1 == t) = false := by
          simp only [beq_eq_false_iff_ne, ne_eq]
          exact hat
        simp only [List.map_cons, List.filter_cons, hhead]
        exact ih hnd2 hta

theorem transport_index_weightedMelt (tracts selected : List String)
    (w : String → ℕ) (value : String → String → ℚ) {t : String}
    (hnd : tracts.Nodup) (ht : t ∈ tracts) :
    transport_index (weightedMelt tracts selected w value) t =
      (selected.map (fun i => (w i : ℚ) * value t i)).sum := by
  induction selected with
  | nil => simp [transport_index, weightedMelt]
  | cons ind rest ih =>
      have hsplit : weightedMelt tracts (ind :: rest) w value =
          (tracts.map (fun s => (s, ind, (w ind : ℚ) * value s ind))) ++
            weightedMelt tracts rest w value := by
        simp [weightedMelt]
      have hblock := filter_map_tract tracts t
        (fun s => (ind, (w ind : ℚ) * value s ind)) hnd ht
      rw [hsplit]
      unfold transport_index at ih ⊢
      rw [List.filter_append, List.map_append, List.sum_append, hblock]
      simp only [List.map_cons, List.map_nil, List.sum_cons, List.sum_nil,
        List.map_cons, List.sum_cons]
      rw [ih]
      simp

/-! ## Claim theorems -/

/-- C4: priority_indicator returns
socioeconomic_index * (1 - policy_index) / sqrt(max(time_left, 1)); the
countdown is floored at 1 before the square root, so a countdown of 0
divides by sqrt(1) rather than raising a division-by-zero error. -/
theorem C4_priority_formula (s p : ℝ) (t : ℤ) :
    priority_indicator s p t = s * (1 - p) / Real.sqrt ((max t 1 : ℤ) : ℝ) := by
  unfold priority_indicator
  rcases lt_or_le t 1 with h | h
  · rw [if_pos h, max_eq_right h.le]
  · rw [if_neg (not_lt.mpr h), max_eq_left h]

/-- C10: for every time_left below 1, including 0 and negatives,
priority_indicator substitutes 1 and returns exactly
socioeconomic_index * (1 - policy_index); in particular countdown 0 and
countdown 1 yield identical scores. -/
theorem C10_floor_below_one (s p : ℝ) (t : ℤ) (h : t < 1) :
    priority_indicator s p t = s * (1 - p) ∧
      priority_indicator s p 0 = priority_indicator s p 1 := by
  constructor
  · unfold priority_indicator
    rw [if_pos h]
    norm_num
  · unfold priority_indicator
    norm_num

/-- Witness for C10 at s = 2, p = 1/2, t = -3. -/
theorem C10_witness :
    ((-3 : ℤ) < 1) ∧ priority_indicator 2 (1/2) (-3) = 2 * (1 - 1/2) ∧
      priority_indicator 2 (1/2) 0 = priority_indicator 2 (1/2) 1 :=
  ⟨by norm_num, (C10_floor_below_one 2 (1/2) (-3) (by norm_num)).1,
   (C10_floor_below_one 2 (1/2) (-3) (by norm_num)).2⟩

/-- C3 counterexample: with Relative Risk 0 and Policy Value 0 (both in
the unit interval) and countdowns 1 < 2, the score does not strictly
decrease: both scores are 0.  The strict decay claimed for every pair
of countdown values therefore fails. -/
theorem C3_counterexample :
    (0 : ℝ) ∈ Set.Icc (0 : ℝ) 1 ∧ (0 : ℝ) ∈ Set.Icc (0 : ℝ) 1 ∧
      (1 : ℤ) < 2 ∧
      ¬ priority_indicator 0 0 2 < priority_indicator 0 0 1 := by
  refine ⟨by norm_num, by norm_num, by norm_num, ?_⟩
  unfold priority_indicator
  norm_num

/-- C3 amended: for Relative Risk in (0,1], Policy Value in [0,1), and
countdowns 1 <= t1 < t2, the priority score at t2 is strictly smaller
than at t1 (strict monotonic urgency decay above the floor, with a
nonzero numerator). -/
theorem C3_monotone_decay (r p : ℝ) (t1 t2 : ℤ)
    (hr0 : 0 < r) (hr1 : r ≤ 1) (hp0 : 0 ≤ p) (hp1 : p < 1)
    (ht1 : 1 ≤ t1) (ht : t1 < t2) :
    priority_indicator r p t2 < priority_indicator r p t1 := by
  unfold priority_indicator
  rw [if_neg (not_lt.mpr ht1), if_neg (not_lt.mpr (ht1.trans ht.le))]
  have hnum : 0 < r * (1 - p) := mul_pos hr0 (by linarith)
  have ht1R : (0 : ℝ) < (t1 : ℝ) := by exact_mod_cast lt_of_lt_of_le Int.zero_lt_one ht1
  have hs1 : 0 < Real.sqrt (t1 : ℝ) := Real.sqrt_pos.mpr ht1R
  have hlt : Real.sqrt (t1 : ℝ) < Real.sqrt (t2 : ℝ) :=
    Real.sqrt_lt_sqrt ht1R.le (by exact_mod_cast ht)
  exact div_lt_div_of_pos_left hnum hs1 hlt

/-- Witness for C3 amended at r = 1, p = 0, t1 = 1, t2 = 2. -/
theorem C3_witness :
    (0 : ℝ) < 1 ∧ (1 : ℝ) ≤ 1 ∧ (0 : ℝ) ≤ 0 ∧ (0 : ℝ) < 1 ∧
      (1 : ℤ) ≤ 1 ∧ (1 : ℤ) < 2 ∧
      priority_indicator 1 0 2 < priority_indicator 1 0 1 :=
  ⟨by norm_num, le_refl 1, le_refl 0, by norm_num, le_refl 1, by norm_num,
   C3_monotone_decay 1 0 1 2 (by norm_num) (le_refl 1) (le_refl 0)
     (by norm_num) (le_refl 1) (by norm_num)⟩

/-- C9: when exactly one of the Policy Value and Countdown columns is
present, the guarded drop of both named columns inside normalize fails
with a KeyError instead of carrying the present column through. -/
theorem C9_policy_drop_error (cols : List String)
    (h : ("Policy Value" ∈ cols ∧ "Countdown" ∉ cols) ∨
         ("Countdown" ∈ cols ∧ "Policy Value" ∉ cols)) :
    normalizePolicyDrop cols = Except.error "KeyError" := by
  unfold normalizePolicyDrop dropColumns
  rcases h with ⟨h1, h2⟩ | ⟨h1, h2⟩ <;> simp_all

/-- Witness for C9 on a table with Policy Value but no Countdown. -/
theorem C9_witness :
    (("Policy Value" ∈ ["Policy Value", "Crossed"] ∧
        "Countdown" ∉ ["Policy Value", "Crossed"]) ∨
      ("Countdown" ∈ ["Policy Value", "Crossed"] ∧
        "Policy Value" ∉ ["Policy Value", "Crossed"])) ∧
      normalizePolicyDrop ["Policy Value", "Crossed"] =
        Except.error "KeyError" :=
  ⟨Or.inl ⟨by decide, by decide⟩,
   C9_policy_drop_error ["Policy Value", "Crossed"]
     (Or.inl ⟨by decide, by decide⟩)⟩

/-- C6: when a column's maximum absolute value over the current unit set
is zero, MaxAbsScaler substitutes a unit scale and the scaled column is
all zeros; the computation proceeds rather than raising a division
error. -/
theorem C6_degenerate_scale (l : List ℚ) (h : maxAbs l = 0) :
    scaleColumn l = List.replicate l.length 0 := by
  have hz : ∀ x ∈ l, x = 0 := by
    intro x hx
    have hle : |x| ≤ maxAbs l := mem_le_maxAbs hx
    rw [h] at hle
    exact abs_eq_zero.mp (le_antisymm hle (abs_nonneg x))
  unfold scaleColumn
  have hmap : l.map (fun x => x / handleZeros (maxAbs l)) =
      l.map (fun _ => (0 : ℚ)) :=
    List.map_congr_left (fun a ha => by rw [hz a ha, zero_div])
  rw [hmap]
  exact List.map_const l 0

/-- Witness for C6 on the all-zero column with two rows. -/
theorem C6_witness :
    maxAbs [0, 0] = 0 ∧
      scaleColumn [0, 0] = List.replicate ([0, 0] : List ℚ).length 0 :=
  ⟨by norm_num [maxAbs], C6_degenerate_scale [0, 0] (by norm_num [maxAbs])⟩

/-- C1: over a nonempty unit set with well-formed indicator data and a
positive maximum raw aggregate score, every Relative Risk value lies in
the unit interval, and the unit attaining the maximum raw aggregate
score has Relative Risk exactly 1. -/
theorem C1_relative_risk_bounds (rows : List RawRow)
    (hw : ∀ r ∈ rows, r.wellFormed)
    (hpos : 0 < listMax (rawScores rows)) :
    (∀ x ∈ relativeRisks rows, 0 ≤ x ∧ x ≤ 1) ∧
      (rows ≠ [] → ∃ i, ∃ hi : i < (rawScores rows).length,
        (rawScores rows).get ⟨i, hi⟩ = listMax (rawScores rows) ∧
        ∃ hi2 : i < (relativeRisks rows).length,
          (relativeRisks rows).get ⟨i, hi2⟩ = 1) := by
  constructor
  · intro x hx
    unfold relativeRisks at hx
    obtain ⟨s, hs, rfl⟩ := List.mem_map.mp hx
    refine ⟨div_nonneg (rawScores_nonneg hw s hs) hpos.le, ?_⟩
    rw [div_le_one hpos]
    exact le_listMax hs
  · intro hne
    have hne2 : rawScores rows ≠ [] := by
      intro hnil
      have := rawScores_length rows
      rw [hnil] at this
      exact hne (List.eq_nil_of_length_eq_zero this.symm)
    obtain ⟨⟨i, hi⟩, hget⟩ :=
      List.mem_iff_get.mp (listMax_mem hne2)
    have hi2 : i < (relativeRisks rows).length := by
      unfold relativeRisks
      rw [List.length_map]
      exact hi
    refine ⟨i, hi, hget, hi2, ?_⟩
    rw [List.get_eq_getElem] at hget ⊢
    unfold relativeRisks at hi2 ⊢
    rw [List.getElem_map]
    rw [hget]
    exact div_self (ne_of_gt hpos)

/-- Witness for C1 on a single county with a 10 percent poverty rate,
population 10 thousand, and all other indicators zero. -/
theorem C1_witness :
    (∀ r ∈ ([⟨10, 0, 0, 0, 0, 0, 10⟩] : List RawRow), r.wellFormed) ∧
      0 < listMax (rawScores [⟨10, 0, 0, 0, 0, 0, 10⟩]) ∧
      ((∀ x ∈ relativeRisks [⟨10, 0, 0, 0, 0, 0, 10⟩], 0 ≤ x ∧ x ≤ 1) ∧
        (([⟨10, 0, 0, 0, 0, 0, 10⟩] : List RawRow) ≠ [] →
          ∃ i, ∃ hi : i < (rawScores [⟨10, 0, 0, 0, 0, 0, 10⟩]).length,
            (rawScores [⟨10, 0, 0, 0, 0, 0, 10⟩]).get ⟨i, hi⟩ =
              listMax (rawScores [⟨10, 0, 0, 0, 0, 0, 10⟩]) ∧
            ∃ hi2 : i < (relativeRisks [⟨10, 0, 0, 0, 0, 0, 10⟩]).length,
              (relativeRisks [⟨10, 0, 0, 0, 0, 0, 10⟩]).get ⟨i, hi2⟩ = 1)) :=
  ⟨by norm_num [RawRow.wellFormed],
   by norm_num [rawScores, normalize, preNormalize, percent_to_population,
     maxAbs, handleZeros, scaleColumn, crossedMean, all_combinations,
     combinations, crossCols, cross, SixRow.get, SixRow.rowSum, listMax],
   C1_relative_risk_bounds [⟨10, 0, 0, 0, 0, 0, 10⟩]
     (by norm_num [RawRow.wellFormed])
     (by norm_num [rawScores, normalize, preNormalize, percent_to_population,
       maxAbs, handleZeros, scaleColumn, crossedMean, all_combinations,
       combinations, crossCols, cross, SixRow.get, SixRow.rowSum, listMax])⟩

/-- C5: the feature crosser generates exactly the fifteen unordered
pairs of the six core columns (combinations of size 2, nothing of
higher order), each pair column is the absolute value of the
element-wise product of the two columns, and the Crossed feature of a
row is the mean of all pair columns, that is their sum divided by 15. -/
theorem C5_cross_pairs :
    all_combinations = [
      [Col.popBelowPoverty, Col.popUnemployed],
      [Col.popBelowPoverty, Col.incomeInequality],
      [Col.popBelowPoverty, Col.nonHomeOwnershipPop],
      [Col.popBelowPoverty, Col.numBurdened],
      [Col.popBelowPoverty, Col.numSingleParent],
      [Col.popUnemployed, Col.incomeInequality],
      [Col.popUnemployed, Col.nonHomeOwnershipPop],
      [Col.popUnemployed, Col.numBurdened],
      [Col.popUnemployed, Col.numSingleParent],
      [Col.incomeInequality, Col.nonHomeOwnershipPop],
      [Col.incomeInequality, Col.numBurdened],
      [Col.incomeInequality, Col.numSingleParent],
      [Col.nonHomeOwnershipPop, Col.numBurdened],
      [Col.nonHomeOwnershipPop, Col.numSingleParent],
      [Col.numBurdened, Col.numSingleParent]] ∧
    (∀ (r : SixRow) (a b : Col), cross [a, b] r = |r.get a * r.get b|) ∧
    (∀ r : SixRow, crossedMean r =
      ((all_combinations.map (fun combo => cross combo r)).sum) / 15) := by
  refine ⟨by decide, fun r a b => by simp [cross], fun r => ?_⟩
  have hlen : all_combinations.length = 15 := by decide
  rw [crossedMean, hlen]
  norm_num

/-- C2 counterexample: two counties, a database policy table holding two
records for the first county and none for the second.  The join does
not cover every unit exactly (a duplicate compensating a gap), yet the
merged table has as many rows as the county table, so the length check
accepts it and the ranker emits the Rank and Policy Value columns
instead of falling back. -/
theorem C2_counterexample :
    ¬ coversExactly
        [⟨0, "A", ⟨10, 0, 0, 0, 0, 0, 10⟩⟩, ⟨1, "B", ⟨10, 0, 0, 0, 0, 0, 20⟩⟩]
        [(0, 1/2, 5), (0, 1/4, 3)] ∧
      ((rank_counties
        ((get_existing_policies
          [⟨0, "A", ⟨10, 0, 0, 0, 0, 0, 10⟩⟩, ⟨1, "B", ⟨10, 0, 0, 0, 0, 0, 20⟩⟩]
          [(0, 1/2, 5), (0, 1/4, 3)] [] true).1.map County.raw)
        (get_existing_policies
          [⟨0, "A", ⟨10, 0, 0, 0, 0, 0, 10⟩⟩, ⟨1, "B", ⟨10, 0, 0, 0, 0, 0, 20⟩⟩]
          [(0, 1/2, 5), (0, 1/4, 3)] [] true).2).2).isSome = true := by
  constructor
  · intro h
    have hb := h ⟨1, "B", ⟨10, 0, 0, 0, 0, 0, 20⟩⟩ (by simp)
    simp [List.filter] at hb
  · rfl

/-- C2 amended: when the database policy merge and the workbook policy
merge are each empty or of a length different from the county count,
get_existing_policies returns the county table unchanged with no policy
columns, and the ranker output carries no Rank or Policy Value column:
only the Relative Risk ranking, the distinct shape signalling that
policy adjustment was skipped.  The length check is the actual
fallback condition; exact one-to-one coverage is not checked, so a
duplicate compensated by a gap slips through. -/
theorem C2_policy_fallback (df : List County)
    (dbPolicy : List (ℕ × ℚ × ℤ)) (excelPolicy : List (String × ℚ × ℤ))
    (useDb : Bool)
    (h1 : ¬ ((mergeOn df dbPolicy County.county_id).length ≠ 0 ∧
        (mergeOn df dbPolicy County.county_id).length = df.length))
    (h2 : ¬ ((mergeOn df excelPolicy County.countyName).length ≠ 0 ∧
        (mergeOn df excelPolicy County.countyName).length = df.length)) :
    get_existing_policies df dbPolicy excelPolicy useDb = (df, none) ∧
      (rank_counties
        ((get_existing_policies df dbPolicy excelPolicy useDb).1.map County.raw)
        (get_existing_policies df dbPolicy excelPolicy useDb).2).2 = none ∧
      (rank_counties
        ((get_existing_policies df dbPolicy excelPolicy useDb).1.map County.raw)
        (get_existing_policies df dbPolicy excelPolicy useDb).2).1 =
        relativeRisks (df.map County.raw) := by
  have hg : get_existing_policies df dbPolicy excelPolicy useDb = (df, none) := by
    simp only [get_existing_policies]
    rw [if_neg h1, if_neg h2]
  refine ⟨hg, ?_, ?_⟩ <;> rw [hg] <;> rfl

/-- Witness for C2 amended: one county and empty policy tables. -/
theorem C2_witness :
    (¬ ((mergeOn [⟨0, "A", ⟨10, 0, 0, 0, 0, 0, 10⟩⟩] [] County.county_id).length ≠ 0 ∧
        (mergeOn [⟨0, "A", ⟨10, 0, 0, 0, 0, 0, 10⟩⟩] [] County.county_id).length =
          ([⟨0, "A", ⟨10, 0, 0, 0, 0, 0, 10⟩⟩] : List County).length)) ∧
      (¬ ((mergeOn [⟨0, "A", ⟨10, 0, 0, 0, 0, 0, 10⟩⟩] [] County.countyName).length ≠ 0 ∧
        (mergeOn [⟨0, "A", ⟨10, 0, 0, 0, 0, 0, 10⟩⟩] [] County.countyName).length =
          ([⟨0, "A", ⟨10, 0, 0, 0, 0, 0, 10⟩⟩] : List County).length)) ∧
      get_existing_policies [⟨0, "A", ⟨10, 0, 0, 0, 0, 0, 10⟩⟩] [] [] true =
        ([⟨0, "A", ⟨10, 0, 0, 0, 0, 0, 10⟩⟩], none) ∧
      (rank_counties
        ((get_existing_policies [⟨0, "A", ⟨10, 0, 0, 0, 0, 0, 10⟩⟩] [] [] true).1.map
          County.raw)
        (get_existing_policies [⟨0, "A", ⟨10, 0, 0, 0, 0, 0, 10⟩⟩] [] [] true).2).2 =
        none ∧
      (rank_counties
        ((get_existing_policies [⟨0, "A", ⟨10, 0, 0, 0, 0, 0, 10⟩⟩] [] [] true).1.map
          County.raw)
        (get_existing_policies [⟨0, "A", ⟨10, 0, 0, 0, 0, 0, 10⟩⟩] [] [] true).2).1 =
        relativeRisks (([⟨0, "A", ⟨10, 0, 0, 0, 0, 0, 10⟩⟩] : List County).map
          County.raw) := by
  refine ⟨by simp [mergeOn], by simp [mergeOn], ?_⟩
  have h := C2_policy_fallback [⟨0, "A", ⟨10, 0, 0, 0, 0, 0, 10⟩⟩] [] [] true
    (by simp [mergeOn]) (by simp [mergeOn])
  exact h

/-- C8: three units whose poverty-population indicator evaluates to
1000, 2000 and 4000 with every other indicator zero; after
normalization the poverty column is scaled by its maximum absolute
value, so the third unit has value 1 and the first 1/4. -/
theorem C8_poverty_scenario :
    (([⟨10, 0, 0, 0, 0, 0, 10⟩, ⟨10, 0, 0, 0, 0, 0, 20⟩,
        ⟨10, 0, 0, 0, 0, 0, 40⟩] : List RawRow).map
        (fun r => (preNormalize r).popBelowPoverty)) = [1000, 2000, 4000] ∧
      (normalize [⟨10, 0, 0, 0, 0, 0, 10⟩, ⟨10, 0, 0, 0, 0, 0, 20⟩,
        ⟨10, 0, 0, 0, 0, 0, 40⟩]).map SixRow.popBelowPoverty =
        [1/4, 1/2, 1] := by
  constructor
  · norm_num [preNormalize, percent_to_population]
  · norm_num [normalize, preNormalize, percent_to_population, maxAbs,
      handleZeros]

/-- C7 counterexample: the weights 49 and 50 sum to 99, which differs
from 100, yet the display layer shows no validation message, because
the code only warns for sums above 101 or below 99. -/
theorem C7_counterexample :
    ([49, 50] : List ℕ).sum ≠ 100 ∧ weightWarning [49, 50] = false := by
  constructor <;> decide

/-- C7 amended: for every caller-chosen indicator subset, every weight
assignment and every unit of a duplicate-free unit set, the weighted
sub-index of the unit equals the sum over the selected indicators of
weight times normalized value, the computation proceeding for every
weight assignment; the output is sorted descending by the sub-index;
and the display-layer validation message appears exactly when the
weight sum lies outside the tolerance band 99 to 101 (a sum of 99 or
101, though different from 100, produces no message). -/
theorem C7_weighted_subindex (tracts selected : List String)
    (w : String → ℕ) (value : String → String → ℚ)
    (hnd : tracts.Nodup) :
    (∀ t ∈ tracts,
      transport_index (weightedMelt tracts selected w value) t =
        (selected.map (fun i => (w i : ℚ) * value t i)).sum) ∧
    (∀ ws : List ℕ, weightWarning ws = false ↔ (99 ≤ ws.sum ∧ ws.sum ≤ 101)) ∧
    List.Sorted (· ≥ ·) (sortDescending
      (tracts.map (transport_index (weightedMelt tracts selected w value)))) := by
  refine ⟨fun t ht => transport_index_weightedMelt tracts selected w value hnd ht,
    fun ws => ?_, ?_⟩
  · simp only [weightWarning, Bool.or_eq_false_iff, decide_eq_false_iff_not,
      not_lt]
    omega
  · have hs := @List.sorted_mergeSort ℚ (fun a b => decide (b ≤ a))
      (fun a b c hab hbc => by
        simp only [decide_eq_true_eq] at hab hbc ⊢
        exact le_trans hbc hab)
      (fun a b => by
        simp only [Bool.or_eq_true, decide_eq_true_eq]
        exact le_total b a)
      (tracts.map (transport_index (weightedMelt tracts selected w value)))
    unfold sortDescending
    refine List.Pairwise.imp ?_ hs
    intro a b hab
    simpa using hab

/-- Witness for C7 amended on two tracts and one indicator. -/
theorem C7_witness :
    (["t1", "t2"] : List String).Nodup ∧
      ((∀ t ∈ (["t1", "t2"] : List String),
        transport_index (weightedMelt ["t1", "t2"] ["A"] (fun _ => 49)
          (fun _ _ => (1 : ℚ))) t =
          ((["A"] : List String).map
            (fun i => ((fun _ : String => (49 : ℕ)) i : ℚ) *
              (fun _ _ => (1 : ℚ)) t i)).sum) ∧
      (∀ ws : List ℕ, weightWarning ws = false ↔ (99 ≤ ws.sum ∧ ws.sum ≤ 101)) ∧
      List.Sorted (· ≥ ·) (sortDescending
        ((["t1", "t2"] : List String).map
          (transport_index (weightedMelt ["t1", "t2"] ["A"] (fun _ => 49)
            (fun _ _ => (1 : ℚ))))))) :=
  ⟨by decide,
   C7_weighted_subindex ["t1", "t2"] ["A"] (fun _ => 49) (fun _ _ => (1 : ℚ))
     (by decide)⟩

end SocialData
